import Mathlib

/-!
# Verification of the edubin flashcard study-session engine

Shallow embedding of the study-session lifecycle and statistics-aggregation
code in `routes/flashcards.js` (the session engine: `POST /study/:deckId`,
`PUT /study/:sessionId`, `PUT /study/:sessionId/complete`, and the
`GET /statistics` time-range handling), together with the deck/flashcard
counter maintenance of `POST /decks/:deckId/cards`, `DELETE /:id`,
`POST /decks` and `DELETE /decks/:id`.

Conventions of the embedding:
* Mongo ObjectIds are modelled as natural numbers.
* JavaScript `Date` values and millisecond arithmetic are modelled as `Int`
  (milliseconds since epoch); `Math.floor` of a division is `Int.fdiv`.
* Each HTTP handler is modelled from the point where the session (or deck,
  or flashcard) lookup succeeded; the lookup failure is the `notFound`
  error and the looked-up record is the function's argument.
* A handler that returns an error response before calling `save()` leaves
  the persisted record unchanged; `Except.error` therefore means "nothing
  was persisted by this call".
-/

namespace Edubin

/-- Error responses of the session-lifecycle handlers: `notFound` is the
404 of a failed ownership lookup, `invalidReference` the 400
"Flashcard not found in this session", `emptyDeck` the 400
"No flashcards found in this deck", and `serverError` the 500 produced by
the catch-all handler when an awaited store call rejects. -/
inductive SessionError where
  | notFound
  | invalidReference
  | emptyDeck
  | serverError
deriving DecidableEq, Repr

/-- One element of `studySession.flashcards` (the per-card record created by
the `POST /study/:deckId` handler, lines 611-616): flashcard reference,
tri-state outcome (`none` = unanswered), cumulative time spent, attempt
count. -/
structure SessionCardRecord where
  flashcard : Nat
  isCorrect : Option Bool
  timeSpent : Int
  attempts : Nat
deriving DecidableEq, Repr

/-- `studySession.score`: running correct/incorrect tallies and the derived
percentage. -/
structure Score where
  correct : Nat
  incorrect : Nat
  percentage : Nat
deriving DecidableEq, Repr

/-- The persisted `StudySession` document as used by `routes/flashcards.js`.

Modelled from the spec: the StudySession schema file itself is not among the
sources (only its callers are); per spec §3/§6 a session carries an owning
user, a deck reference, a start timestamp set at creation, an optional end
timestamp and total duration (absent until completion), a completion flag,
the ordered card records and the running score. -/
structure StudySession where
  user : Nat
  deck : Nat
  flashcards : List SessionCardRecord
  score : Score
  startTime : Int
  endTime : Option Int
  totalDuration : Option Int
  isCompleted : Bool
deriving DecidableEq, Repr

/-- Equality of handler responses is decidable, so concrete runs can be
checked by evaluation. -/
instance {ε α : Type} [DecidableEq ε] [DecidableEq α] : DecidableEq (Except ε α) :=
  fun a b =>
    match a, b with
    | .ok x, .ok y =>
        if h : x = y then isTrue (by rw [h])
        else isFalse (by intro he; cases he; exact h rfl)
    | .error x, .error y =>
        if h : x = y then isTrue (by rw [h])
        else isFalse (by intro he; cases he; exact h rfl)
    | .ok _, .error _ => isFalse (by intro he; cases he)
    | .error _, .ok _ => isFalse (by intro he; cases he)

/-- JavaScript `Math.round (num / den)` for natural `num` and positive
natural `den`: round-half-up, i.e. `⌊num/den + 1/2⌋ = (2*num + den) / (2*den)`
in natural-number division. -/
def jsRoundDiv (num den : Nat) : Nat :=
  (2 * num + den) / (2 * den)

/-- Lines 670-683 of `PUT /study/:sessionId`: `findIndex` on
`card.flashcard.toString() === flashcardId` followed by the in-place update
of that record (`isCorrect` overwritten, `timeSpent` accumulated, `attempts`
incremented). `none` models `findIndex` returning `-1`. -/
def updateCard (fid : Nat) (b : Bool) (t : Int) :
    List SessionCardRecord → Option (List SessionCardRecord)
  | [] => none
  | c :: cs =>
    if c.flashcard = fid then
      some ({ c with isCorrect := some b, timeSpent := c.timeSpent + t,
                     attempts := c.attempts + 1 } :: cs)
    else
      (updateCard fid b t cs).map (c :: ·)

/-- The `PUT /study/:sessionId` handler (lines 655-707) after the session
lookup succeeded. `storeOk` is the outcome of the awaited
`Flashcard.findByIdAndUpdate` statistic increment: when that promise
rejects the catch-all returns a 500 before `studySession.save()` runs, so
the persisted session is unchanged (`Except.error .serverError`).
On success the handler overwrites the card's outcome, accumulates its time,
increments its attempts, increments `score.correct` or `score.incorrect`,
and recomputes `score.percentage = Math.round(correct / total * 100)`. -/
def recordOutcome (s : StudySession) (fid : Nat) (b : Bool) (t : Int)
    (storeOk : Bool) : Except SessionError StudySession :=
  match updateCard fid b t s.flashcards with
  | none => .error .invalidReference
  | some cards' =>
    if storeOk then
      let correct' := if b then s.score.correct + 1 else s.score.correct
      let incorrect' := if b then s.score.incorrect else s.score.incorrect + 1
      .ok { s with
            flashcards := cards',
            score := { correct := correct', incorrect := incorrect',
                       percentage :=
                         jsRoundDiv (100 * correct') (correct' + incorrect') } }
    else
      .error .serverError

/-- The persisted state after a handler call: an error response means
`save()` was never reached, so the stored session is the one the handler
loaded. -/
def persistedAfter (s : StudySession) (r : Except SessionError StudySession) :
    StudySession :=
  match r with
  | .ok s' => s'
  | .error _ => s

/-- The `POST /study/:deckId` handler (lines 593-626) after the deck lookup
succeeded: loads the deck's flashcards (`cards`), rejects an empty deck with
a 400 before creating anything, optionally shuffles (the comparator-based
`sort(() => Math.random() - 0.5)` is some permutation of the list, passed in
as `shuffle`), and persists a session with one freshly initialized record
per card.

Modelled from the spec: the StudySession schema defaults are not among the
sources; per spec §3/§4.1 a fresh session has `startTime` set at creation
time, no `endTime`/`totalDuration`, completion flag false and Score
initialized to zeros. -/
def startSession (shuffle : List Nat → List Nat) (randomOrder : Bool)
    (cards : List Nat) (user deck : Nat) (now : Int) :
    Except SessionError StudySession :=
  if cards.isEmpty then
    .error .emptyDeck
  else
    let ordered := if randomOrder then shuffle cards else cards
    .ok { user := user
          deck := deck
          flashcards := ordered.map (fun id =>
            { flashcard := id, isCorrect := none, timeSpent := 0, attempts := 0 })
          score := { correct := 0, incorrect := 0, percentage := 0 }
          startTime := now
          endTime := none
          totalDuration := none
          isCompleted := false }

/-- The `PUT /study/:sessionId/complete` handler (lines 745-750) after the
session lookup succeeded: sets `endTime` to the current time, computes
`totalDuration = Math.floor((endTime - startTime) / 1000)` seconds and sets
the completion flag. There is no already-completed check. -/
def completeSession (s : StudySession) (now : Int) : StudySession :=
  { s with endTime := some now
           totalDuration := some ((now - s.startTime).fdiv 1000)
           isCompleted := true }

/-- A deck document as used by `routes/flashcards.js`: identity, owner and
the aggregate-statistics block.

Modelled from the spec: the Deck schema with the statistics block is not
among the sources (the `models/Deck.js` present belongs to a different
sub-application); per spec §3 a deck carries
`statistics = {totalCards, totalStudyTime, averageScore}`, maintained
incrementally, so a freshly created deck starts all three at zero. -/
structure Deck where
  id : Nat
  owner : Nat
  totalCards : Int
  totalStudyTime : Int
  averageScore : Int
deriving DecidableEq, Repr

/-- Lines 753-758: the `$inc` forwarded to the deck store by
`PUT /study/:sessionId/complete`:
`totalStudyTime += Math.floor(totalDuration / 60)` and
`averageScore += score.percentage` (additive, not a running mean). -/
def deckAfterComplete (d : Deck) (s : StudySession) : Deck :=
  { d with totalStudyTime := d.totalStudyTime + (s.totalDuration.getD 0).fdiv 60
           averageScore := d.averageScore + (s.score.percentage : Int) }

/-- One `PUT /study/:sessionId` request body: the referenced card, the
boolean outcome and the time-spent delta. -/
structure Submission where
  flashcardId : Nat
  isCorrect : Bool
  timeSpent : Int
deriving DecidableEq, Repr

/-- A sequence of `PUT /study/:sessionId` calls, each with a succeeding
flashcard-store increment, stopping at the first error response. -/
def runSubmissions (s : StudySession) : List Submission → Except SessionError StudySession
  | [] => .ok s
  | sub :: rest =>
    match recordOutcome s sub.flashcardId sub.isCorrect sub.timeSpent true with
    | .error e => .error e
    | .ok s' => runSubmissions s' rest

/-- Total attempt count across a session's card records. -/
def attemptsSum (cards : List SessionCardRecord) : Nat :=
  (cards.map (·.attempts)).sum

example : jsRoundDiv (100 * 2) 3 = 67 := by decide
example : jsRoundDiv (100 * 1) 8 = 13 := by decide
example : jsRoundDiv (100 * 3) 4 = 75 := by decide

/-! ## Statistics time-range handling (`GET /statistics`, lines 777-788) -/

/-- The `createdAt` filter built by `GET /statistics`:
`all` = no filter, `window ms` = `createdAt >= Date.now() - ms`, and
`invalidDate` = the milliseconds were `NaN` (so `new Date(NaN)` is an
Invalid Date, whose cast by the query layer rejects and the handler's
catch-all returns a 500). -/
inductive DateFilter where
  | all
  | window (ms : Int)
  | invalidDate
deriving DecidableEq, Repr

/-- JavaScript `String.prototype.replace('d', '')`: removes the first
occurrence of the character `d`. -/
def removeFirstChar (c : Char) : List Char → List Char
  | [] => []
  | x :: xs => if x = c then xs else x :: removeFirstChar c xs

/-- The digit-prefix value used by `parseInt`: `none` when the string has no
leading decimal digit. -/
def digitsVal (cs : List Char) : Option Nat :=
  let ds := cs.takeWhile (·.isDigit)
  if ds.isEmpty then none
  else some (ds.foldl (fun acc c => 10 * acc + (c.toNat - '0'.toNat)) 0)

/-- JavaScript `parseInt(s)` (radix 10): skip leading whitespace, accept an
optional sign, read the longest digit prefix; `none` models `NaN`. -/
def jsParseInt (s : String) : Option Int :=
  let cs := s.toList.dropWhile (fun ch => ch = ' ' ∨ ch = '\t' ∨ ch = '\n' ∨ ch = '\r')
  match cs with
  | '-' :: rest => (digitsVal rest).map (fun n => -(n : Int))
  | '+' :: rest => (digitsVal rest).map (fun n => (n : Int))
  | rest => (digitsVal rest).map (fun n => (n : Int))

/-- Line 780: `const timeRange = req.query.range || '7d'` — a missing or
empty (falsy) range falls back to the string `"7d"`. -/
def resolveRange : Option String → String
  | none => "7d"
  | some r => if r = "" then "7d" else r

/-- Lines 782-788: every range other than `"all"` is turned into a window of
`parseInt(range.replace('d', '')) * 24*60*60*1000` milliseconds; a `NaN`
parse yields an invalid date bound. -/
def timeRangeFilter (range : String) : DateFilter :=
  if range = "all" then .all
  else
    match jsParseInt (String.mk (removeFirstChar 'd' range.toList)) with
    | none => .invalidDate
    | some days => .window (days * (24 * 60 * 60 * 1000))

/-- The full range handling of `GET /statistics`: falsy default then window
construction. -/
def getStatisticsFilter (range : Option String) : DateFilter :=
  timeRangeFilter (resolveRange range)

example : getStatisticsFilter none = .window (7 * 86400000) := by decide
example : getStatisticsFilter (some "all") = .all := by decide
example : getStatisticsFilter (some "90d") = .window (90 * 86400000) := by decide
example : getStatisticsFilter (some "abc") = .invalidDate := by decide

/-! ## Deck / flashcard store and the totalCards counter -/

/-- A flashcard document, reduced to the fields the counter invariant
depends on: identity, parent deck reference, owner. -/
structure FlashcardRec where
  id : Nat
  deck : Nat
  owner : Nat
deriving DecidableEq, Repr

/-- The persisted decks and flashcards visible to the handlers of
`routes/flashcards.js`. -/
structure Store where
  decks : List Deck
  cards : List FlashcardRec
deriving DecidableEq, Repr

/-- Live number of flashcards referencing a deck. -/
def cardCount (cards : List FlashcardRec) (deckId : Nat) : Nat :=
  cards.countP (fun c => c.deck == deckId)

/-- `POST /decks` (lines 83-90): creates a deck for the caller; the
statistics block starts at its schema defaults (see `Deck`). -/
def createDeck (s : Store) (uid deckId : Nat) : Store :=
  { s with decks := s.decks ++
      [{ id := deckId, owner := uid, totalCards := 0,
         totalStudyTime := 0, averageScore := 0 }] }

/-- `POST /decks/:deckId/cards` (lines 355-382): if the caller owns the
deck, creates the flashcard and forwards `$inc {statistics.totalCards: 1}`
to that deck; otherwise a 404 and no change. -/
def createCard (s : Store) (uid deckId cardId : Nat) : Store :=
  if s.decks.any (fun d => d.id == deckId && d.owner == uid) then
    { decks := s.decks.map (fun d =>
        if d.id = deckId then { d with totalCards := d.totalCards + 1 } else d)
      cards := s.cards ++ [{ id := cardId, deck := deckId, owner := uid }] }
  else s

/-- `DELETE /:id` (lines 528-545): if the caller owns the flashcard,
deletes it by id and forwards `$inc {statistics.totalCards: -1}` to its
deck (`findByIdAndUpdate` on a missing deck is a no-op); otherwise a 404
and no change. -/
def deleteCard (s : Store) (uid cardId : Nat) : Store :=
  match s.cards.find? (fun c => c.id == cardId && c.owner == uid) with
  | none => s
  | some c =>
      { decks := s.decks.map (fun d =>
          if d.id = c.deck then { d with totalCards := d.totalCards - 1 } else d)
        cards := s.cards.eraseP (fun x => x.id == cardId) }

/-- `DELETE /decks/:id` (lines 226-245): if the caller owns the deck,
deletes every flashcard referencing it (`deleteMany`) and then the deck
itself; otherwise a 404 and no change. (Study sessions are also deleted
but carry no card counter.) -/
def deleteDeck (s : Store) (uid deckId : Nat) : Store :=
  if s.decks.any (fun d => d.id == deckId && d.owner == uid) then
    { decks := s.decks.eraseP (fun d => d.id == deckId)
      cards := s.cards.filter (fun c => !(c.deck == deckId)) }
  else s

/-- The store operations that create or delete decks or flashcards. -/
inductive StoreOp where
  | createDeck (uid deckId : Nat)
  | deleteDeck (uid deckId : Nat)
  | createCard (uid deckId cardId : Nat)
  | deleteCard (uid cardId : Nat)
deriving DecidableEq, Repr

/-- Dispatch of a store operation to its handler. -/
def applyOp (op : StoreOp) (s : Store) : Store :=
  match op with
  | .createDeck uid deckId => createDeck s uid deckId
  | .deleteDeck uid deckId => deleteDeck s uid deckId
  | .createCard uid deckId cardId => createCard s uid deckId cardId
  | .deleteCard uid cardId => deleteCard s uid cardId

/-- MongoDB generates a globally fresh `_id` for every created document:
a created deck's id is unused by decks and referenced by no existing card,
and a created flashcard's id is unused by flashcards. -/
def freshIds : StoreOp → Store → Bool
  | .createDeck _ deckId, s =>
      !(s.decks.any (fun d => d.id == deckId)) && cardCount s.cards deckId == 0
  | .createCard _ _ cardId, s => !(s.cards.any (fun c => c.id == cardId))
  | _, _ => true

/-- The invariant of spec §3: document ids are unique and every deck's
`statistics.totalCards` equals the live count of flashcards referencing
it. -/
abbrev TotalCardsInv (s : Store) : Prop :=
  (s.decks.map (·.id)).Nodup ∧ (s.cards.map (·.id)).Nodup ∧
  ∀ d ∈ s.decks, d.totalCards = (cardCount s.cards d.id : Int)

/-! ## Helper lemmas -/

/-- `Math.round` of a nonnegative ratio agrees with the mathematical
round-half-up: `jsRoundDiv num den = round (num / den)`. -/
theorem jsRoundDiv_eq_round (num den : Nat) (hden : 0 < den) :
    (jsRoundDiv num den : ℤ) = round ((num : ℚ) / den) := by
  have hd2 : (0 : ℚ) < ((2 * den : ℕ) : ℚ) := by
    push_cast
    positivity
  have hsum : (num : ℚ) / den + 1 / 2 = ((2 * num + den : ℕ) : ℚ) / ((2 * den : ℕ) : ℚ) := by
    have hdq : ((den : ℚ)) ≠ 0 := by positivity
    push_cast
    field_simp
    ring
  rw [round_eq, hsum]
  have hfloor : ⌊((2 * num + den : ℕ) : ℚ) / ((2 * den : ℕ) : ℚ)⌋
      = ((2 * num + den) / (2 * den) : ℕ) := by
    rw [Int.floor_eq_iff]
    constructor
    · rw [le_div_iff₀ hd2]
      have := Nat.div_mul_le_self (2 * num + den) (2 * den)
      exact_mod_cast this
    · rw [div_lt_iff₀ hd2]
      have hmod := Nat.div_add_mod (2 * num + den) (2 * den)
      have hlt := Nat.mod_lt (2 * num + den) (by omega : 0 < 2 * den)
      have hexp : ((2 * num + den) / (2 * den) + 1) * (2 * den)
          = 2 * den * ((2 * num + den) / (2 * den)) + 2 * den := by ring
      have : 2 * num + den < ((2 * num + den) / (2 * den) + 1) * (2 * den) := by omega
      push_cast
      exact_mod_cast this
  rw [hfloor, jsRoundDiv]

/-- `updateCard` fails exactly on a flashcard id absent from the session's
snapshot. -/
theorem updateCard_eq_none (fid : Nat) (b : Bool) (t : Int) :
    ∀ cards : List SessionCardRecord,
      fid ∉ cards.map (·.flashcard) → updateCard fid b t cards = none := by
  intro cards
  induction cards with
  | nil => intro _; rfl
  | cons c cs ih =>
    intro h
    have hc : ¬ c.flashcard = fid := by
      intro he
      exact h (by simp [he])
    have hcs : fid ∉ cs.map (·.flashcard) := by
      intro hm
      exact h (by simp [List.mem_map] at hm ⊢; exact Or.inr hm)
    simp [updateCard, hc, ih hcs]

/-- `updateCard` on a present flashcard id succeeds and preserves the id
sequence and length while raising the total attempt count by one. -/
theorem updateCard_spec (fid : Nat) (b : Bool) (t : Int) :
    ∀ cards : List SessionCardRecord,
      fid ∈ cards.map (·.flashcard) →
      ∃ cards', updateCard fid b t cards = some cards' ∧
        cards'.map (·.flashcard) = cards.map (·.flashcard) ∧
        cards'.length = cards.length ∧
        attemptsSum cards' = attemptsSum cards + 1 := by
  intro cards
  induction cards with
  | nil => intro h; simp at h
  | cons c cs ih =>
    intro h
    by_cases hc : c.flashcard = fid
    · refine ⟨{ c with isCorrect := some b, timeSpent := c.timeSpent + t,
                       attempts := c.attempts + 1 } :: cs,
        by simp [updateCard, hc], ?_, ?_, ?_⟩
      · simp [hc]
      · simp
      · simp [attemptsSum]
        omega
    · have hcs : fid ∈ cs.map (·.flashcard) := by
        rcases List.mem_map.mp h with ⟨x, hx, hfx⟩
        rcases List.mem_cons.mp hx with hx | hx
        · exact absurd (hx ▸ hfx) hc
        · exact List.mem_map.mpr ⟨x, hx, hfx⟩
      obtain ⟨cs', hup, hmap, hlen, hsum⟩ := ih hcs
      refine ⟨c :: cs', by simp [updateCard, hc, hup], ?_, ?_, ?_⟩
      · simp [hmap]
      · simp [hlen]
      · simp [attemptsSum] at hsum ⊢
        omega

/-- A successful `RecordOutcome` step: the card is in the snapshot and the
forwarded flashcard increment succeeds; the handler responds 200 with the
session carrying the updated record and score. -/
theorem recordOutcome_ok_spec (s : StudySession) (fid : Nat) (b : Bool) (t : Int)
    (h : fid ∈ s.flashcards.map (·.flashcard)) :
    ∃ s', recordOutcome s fid b t true = .ok s' ∧
      s'.flashcards.map (·.flashcard) = s.flashcards.map (·.flashcard) ∧
      s'.flashcards.length = s.flashcards.length ∧
      attemptsSum s'.flashcards = attemptsSum s.flashcards + 1 ∧
      s'.score.correct = s.score.correct + (if b then 1 else 0) ∧
      s'.score.incorrect = s.score.incorrect + (if b then 0 else 1) ∧
      s'.score.percentage =
        jsRoundDiv (100 * s'.score.correct) (s'.score.correct + s'.score.incorrect) ∧
      s'.isCompleted = s.isCompleted ∧
      s'.startTime = s.startTime := by
  obtain ⟨cards', hup, hmap, hlen, hsum⟩ := updateCard_spec fid b t s.flashcards h
  refine ⟨{ s with
            flashcards := cards'
            score := { correct := if b then s.score.correct + 1 else s.score.correct
                       incorrect := if b then s.score.incorrect else s.score.incorrect + 1
                       percentage := jsRoundDiv
                         (100 * (if b then s.score.correct + 1 else s.score.correct))
                         ((if b then s.score.correct + 1 else s.score.correct) +
                          (if b then s.score.incorrect else s.score.incorrect + 1)) } },
    by simp [recordOutcome, hup], hmap, hlen, hsum, ?_, ?_, ?_, rfl, rfl⟩
  · cases b <;> simp
  · cases b <;> simp
  · cases b <;> simp

/-- A `RecordOutcome` step referencing a card outside the snapshot is
rejected with `invalidReference` regardless of the flashcard store. -/
theorem recordOutcome_invalidReference (s : StudySession) (fid : Nat) (b : Bool)
    (t : Int) (storeOk : Bool) (h : fid ∉ s.flashcards.map (·.flashcard)) :
    recordOutcome s fid b t storeOk = .error .invalidReference := by
  simp only [recordOutcome, updateCard_eq_none fid b t s.flashcards h]

/-- Folding a list of in-snapshot submissions: every call succeeds, the id
sequence is preserved, the tallies grow by the per-outcome counts and the
attempt total by the number of calls, and (after at least one call) the
stored percentage is the round of the final tallies. -/
theorem runSubmissions_spec :
    ∀ (subs : List Submission) (s : StudySession),
      (∀ sub ∈ subs, sub.flashcardId ∈ s.flashcards.map (·.flashcard)) →
      ∃ s', runSubmissions s subs = .ok s' ∧
        s'.flashcards.map (·.flashcard) = s.flashcards.map (·.flashcard) ∧
        s'.flashcards.length = s.flashcards.length ∧
        attemptsSum s'.flashcards = attemptsSum s.flashcards + subs.length ∧
        s'.score.correct = s.score.correct + subs.countP (fun sub => sub.isCorrect) ∧
        s'.score.incorrect = s.score.incorrect + subs.countP (fun sub => !sub.isCorrect) ∧
        (subs = [] → s' = s) ∧
        (subs ≠ [] → s'.score.percentage =
          jsRoundDiv (100 * s'.score.correct) (s'.score.correct + s'.score.incorrect)) := by
  intro subs
  induction subs with
  | nil =>
    intro s _
    exact ⟨s, rfl, rfl, rfl, by simp, by simp, by simp, fun _ => rfl, by simp⟩
  | cons sub rest ih =>
    intro s h
    obtain ⟨s1, h1, hmap1, hlen1, hsum1, hc1, hi1, hpct1, _, _⟩ :=
      recordOutcome_ok_spec s sub.flashcardId sub.isCorrect sub.timeSpent
        (h sub (List.mem_cons_self sub rest))
    obtain ⟨s', h2, hmap2, hlen2, hsum2, hc2, hi2, hnil2, hpct2⟩ :=
      ih s1 (fun x hx => hmap1 ▸ h x (List.mem_cons_of_mem sub hx))
    refine ⟨s', ?_, hmap1 ▸ hmap2, hlen1 ▸ hlen2, ?_, ?_, ?_, by simp, ?_⟩
    · simp only [runSubmissions, h1, h2]
    · rw [hsum2, hsum1]
      simp [Nat.add_assoc, Nat.add_comm 1 rest.length]
    · rw [hc2, hc1, List.countP_cons]
      cases hb : sub.isCorrect
      all_goals simp [hb]
      all_goals omega
    · rw [hi2, hi1, List.countP_cons]
      cases hb : sub.isCorrect
      all_goals simp [hb]
      all_goals omega
    · intro _
      by_cases hrest : rest = []
      · subst hrest
        rw [hnil2 rfl]
        exact hpct1
      · exact hpct2 hrest

/-- Correct and incorrect outcomes of a submission list partition its
length. -/
theorem countP_isCorrect_add (subs : List Submission) :
    subs.countP (fun sub => sub.isCorrect) + subs.countP (fun sub => !sub.isCorrect)
      = subs.length := by
  induction subs with
  | nil => rfl
  | cons sub rest ih =>
    rw [List.countP_cons, List.countP_cons]
    cases hb : sub.isCorrect
    all_goals simp [hb]
    all_goals omega

/-- The flashcard ids of freshly initialized card records are the input
ids. -/
theorem map_flashcard_mk (l : List Nat) :
    (l.map (fun id =>
      ({ flashcard := id, isCorrect := none, timeSpent := 0, attempts := 0 } :
        SessionCardRecord))).map (·.flashcard) = l := by
  induction l with
  | nil => rfl
  | cons a t ih => simp [ih]

/-- StartSession on a nonempty card list succeeds with a fully initialized
session whose card records carry exactly the (possibly shuffled) ids. -/
theorem startSession_ok (shuffle : List Nat → List Nat) (randomOrder : Bool)
    (cards : List Nat) (user deck : Nat) (now : Int) (hcards : cards ≠ []) :
    ∃ s0, startSession shuffle randomOrder cards user deck now = .ok s0 ∧
      s0.flashcards.map (·.flashcard) = (if randomOrder then shuffle cards else cards) ∧
      s0.flashcards.length = (if randomOrder then shuffle cards else cards).length ∧
      (∀ r ∈ s0.flashcards, r.isCorrect = none ∧ r.timeSpent = 0 ∧ r.attempts = 0) ∧
      s0.score = { correct := 0, incorrect := 0, percentage := 0 } ∧
      s0.isCompleted = false := by
  have hne' : cards.isEmpty = false := by
    simpa [List.isEmpty_iff] using hcards
  refine ⟨{ user := user
            deck := deck
            flashcards := (if randomOrder then shuffle cards else cards).map (fun id =>
              { flashcard := id, isCorrect := none, timeSpent := 0, attempts := 0 })
            score := { correct := 0, incorrect := 0, percentage := 0 }
            startTime := now
            endTime := none
            totalDuration := none
            isCompleted := false },
    by simp [startSession, hne'], map_flashcard_mk _, by simp, ?_, rfl, rfl⟩
  intro r hr
  rcases List.mem_map.mp hr with ⟨id, _, hid⟩
  subst hid
  exact ⟨rfl, rfl, rfl⟩

/-- The attempt total of a freshly started session is zero. -/
theorem attemptsSum_init (cards : List SessionCardRecord)
    (h : ∀ r ∈ cards, r.isCorrect = none ∧ r.timeSpent = 0 ∧ r.attempts = 0) :
    attemptsSum cards = 0 := by
  apply List.sum_eq_zero
  intro x hx
  rcases List.mem_map.mp hx with ⟨r, hr, hxr⟩
  rw [← hxr]
  exact (h r hr).2.2

/-! ## Concrete records used as inputs below -/

/-- A one-card session that has already been answered and completed. -/
def completedSessionEx : StudySession :=
  { user := 0
    deck := 0
    flashcards := [{ flashcard := 1, isCorrect := some true, timeSpent := 4, attempts := 1 }]
    score := { correct := 1, incorrect := 0, percentage := 100 }
    startTime := 0
    endTime := some 60000
    totalDuration := some 60
    isCompleted := true }

/-- A freshly started one-card session. -/
def freshSessionEx : StudySession :=
  { user := 0
    deck := 0
    flashcards := [{ flashcard := 1, isCorrect := none, timeSpent := 0, attempts := 0 }]
    score := { correct := 0, incorrect := 0, percentage := 0 }
    startTime := 0
    endTime := none
    totalDuration := none
    isCompleted := false }

/-! ## Claims -/

/-- C2: for a deck whose N flashcards are `cards` (with the shuffle being
some permutation, as any comparator-based sort is), StartSession on an
empty deck always fails with EmptyDeck and persists nothing, and on a
nonempty deck persists a session with exactly N card records, each
unanswered with zero time and zero attempts, and a zero score. -/
theorem c2_startSession_spec (shuffle : List Nat → List Nat) (randomOrder : Bool)
    (cards : List Nat) (user deck : Nat) (now : Int)
    (hperm : (shuffle cards).Perm cards) :
    (cards = [] →
      startSession shuffle randomOrder cards user deck now = .error .emptyDeck) ∧
    (cards ≠ [] →
      ∃ s, startSession shuffle randomOrder cards user deck now = .ok s ∧
        s.flashcards.length = cards.length ∧
        (∀ r ∈ s.flashcards, r.isCorrect = none ∧ r.timeSpent = 0 ∧ r.attempts = 0) ∧
        s.score = { correct := 0, incorrect := 0, percentage := 0 } ∧
        s.isCompleted = false) := by
  constructor
  · intro h
    subst h
    rfl
  · intro h
    obtain ⟨s0, hs0, _, hlen, hinit, hscore, hcomp⟩ :=
      startSession_ok shuffle randomOrder cards user deck now h
    refine ⟨s0, hs0, ?_, hinit, hscore, hcomp⟩
    rw [hlen]
    by_cases hr : randomOrder
    · simp [hr, hperm.length_eq]
    · simp [hr]

/-- C2 witness: an empty deck is rejected with EmptyDeck; a two-card deck
yields two unanswered records and a zero score. -/
theorem c2_startSession_witness :
    (startSession id true ([] : List Nat) 0 0 0 = .error .emptyDeck) ∧
    (∃ s, startSession id true [1, 2] 0 0 0 = .ok s ∧
      s.flashcards.length = 2 ∧
      (∀ r ∈ s.flashcards, r.isCorrect = none ∧ r.timeSpent = 0 ∧ r.attempts = 0) ∧
      s.score = { correct := 0, incorrect := 0, percentage := 0 } ∧
      s.isCompleted = false) :=
  ⟨(c2_startSession_spec id true [] 0 0 0 (List.Perm.refl _)).1 rfl,
   (c2_startSession_spec id true [1, 2] 0 0 0 (List.Perm.refl _)).2 (by decide)⟩

/-- C3 counterexample: the claim says RecordOutcome against a completed
session is rejected and leaves it unchanged; on `completedSessionEx`
(already completed) the handler accepts the call and changes the score,
because `PUT /study/:sessionId` never inspects the completion flag. -/
theorem c3_counterexample :
    completedSessionEx.isCompleted = true ∧
    (recordOutcome completedSessionEx 1 true 5 true).isOk = true ∧
    (persistedAfter completedSessionEx
       (recordOutcome completedSessionEx 1 true 5 true)).score
      ≠ completedSessionEx.score := by decide

/-- C3 amended: RecordOutcome does not check the completion flag: a call
against a completed session whose card is in the snapshot is accepted and
mutates the session (the answered tally grows by one) exactly as for an
in-progress session. -/
theorem c3_amended_ignores_completion (s : StudySession) (fid : Nat) (b : Bool)
    (t : Int) (hdone : s.isCompleted = true)
    (hmem : fid ∈ s.flashcards.map (·.flashcard)) :
    ∃ s', recordOutcome s fid b t true = .ok s' ∧ s'.isCompleted = true ∧
      s'.score.correct + s'.score.incorrect
        = s.score.correct + s.score.incorrect + 1 := by
  obtain ⟨s', h, _, _, _, hc, hi, _, hcomp, _⟩ := recordOutcome_ok_spec s fid b t hmem
  refine ⟨s', h, by rw [hcomp, hdone], ?_⟩
  rw [hc, hi]
  cases b <;> (simp; omega)

/-- C3 amended witness: the completed one-card session accepts an update on
its card. -/
theorem c3_amended_witness :
    ∃ s', recordOutcome completedSessionEx 1 true 5 true = .ok s' ∧
      s'.isCompleted = true ∧
      s'.score.correct + s'.score.incorrect
        = completedSessionEx.score.correct + completedSessionEx.score.incorrect + 1 :=
  c3_amended_ignores_completion completedSessionEx 1 true 5 (by decide) (by decide)

/-- C4 counterexample: the claim says a second CompleteSession fails with
AlreadyCompleted and never alters the first call's totalDuration; the
handler has no completed check, so completing `freshSessionEx` at 5000 ms
and again at 12000 ms succeeds twice and overwrites totalDuration 5 with
12. -/
theorem c4_counterexample :
    (completeSession freshSessionEx 5000).isCompleted = true ∧
    (completeSession freshSessionEx 5000).totalDuration = some 5 ∧
    (completeSession (completeSession freshSessionEx 5000) 12000).isCompleted = true ∧
    (completeSession (completeSession freshSessionEx 5000) 12000).totalDuration = some 12 ∧
    (completeSession (completeSession freshSessionEx 5000) 12000).totalDuration
      ≠ (completeSession freshSessionEx 5000).totalDuration := by decide

/-- C4 amended: CompleteSession is not idempotent in its failure mode: a
second call on the same session also succeeds, and overwrites endTime and
totalDuration with values computed from the second call's current time. -/
theorem c4_amended_overwrites (s : StudySession) (n1 n2 : Int) :
    (completeSession (completeSession s n1) n2).isCompleted = true ∧
    (completeSession (completeSession s n1) n2).endTime = some n2 ∧
    (completeSession (completeSession s n1) n2).totalDuration
      = some ((n2 - s.startTime).fdiv 1000) :=
  ⟨rfl, rfl, rfl⟩

/-- C5: a successful CompleteSession sets endTime to the current time,
completed = true, totalDuration = floor((endTime - startTime) / 1000 ms)
seconds, leaves the score as it was, and forwards to the deck the additive
deltas totalStudyTime += floor(totalDuration / 60) and
averageScore += the session's final percentage. -/
theorem c5_completeSession_spec (s : StudySession) (d : Deck) (now : Int) :
    (completeSession s now).endTime = some now ∧
    (completeSession s now).isCompleted = true ∧
    (completeSession s now).totalDuration = some ((now - s.startTime).fdiv 1000) ∧
    (completeSession s now).score = s.score ∧
    (deckAfterComplete d (completeSession s now)).totalStudyTime
      = d.totalStudyTime + ((now - s.startTime).fdiv 1000).fdiv 60 ∧
    (deckAfterComplete d (completeSession s now)).averageScore
      = d.averageScore + (s.score.percentage : Int) ∧
    (deckAfterComplete d (completeSession s now)).totalCards = d.totalCards :=
  ⟨rfl, rfl, rfl, rfl, rfl, rfl, rfl⟩

/-- C6 counterexample: the claim says a failing flashcard-statistics
increment neither prevents persisting the session update nor fails the
primary operation; in the handler the increment is awaited before
`studySession.save()`, so its rejection sends the catch-all 500 and the
session update is never persisted. -/
theorem c6_counterexample :
    recordOutcome freshSessionEx 1 true 5 false = .error .serverError ∧
    persistedAfter freshSessionEx (recordOutcome freshSessionEx 1 true 5 false)
      = freshSessionEx := by decide

/-- C6 amended: the flashcard-statistics increment is awaited inside
RecordOutcome before the session save: whenever it fails, the whole call
fails with a server error and the session's own update is not persisted. -/
theorem c6_amended_increment_failure_aborts (s : StudySession) (fid : Nat)
    (b : Bool) (t : Int) (hmem : fid ∈ s.flashcards.map (·.flashcard)) :
    recordOutcome s fid b t false = .error .serverError ∧
    persistedAfter s (recordOutcome s fid b t false) = s := by
  obtain ⟨cards', hup, _, _, _⟩ := updateCard_spec fid b t s.flashcards hmem
  constructor
  · simp [recordOutcome, hup]
  · simp [persistedAfter, recordOutcome, hup]

/-- C6 amended witness: on the fresh one-card session a failing increment
aborts the update. -/
theorem c6_amended_witness :
    recordOutcome freshSessionEx 1 true 5 false = .error .serverError ∧
    persistedAfter freshSessionEx (recordOutcome freshSessionEx 1 true 5 false)
      = freshSessionEx :=
  c6_amended_increment_failure_aborts freshSessionEx 1 true 5 (by decide)

/-- C7: a RecordOutcome referencing a flashcardId absent from the session's
snapshot always fails with InvalidReference and leaves the persisted
session (score and card records) unchanged, whatever the flashcard store
would have done. -/
theorem c7_invalid_reference (s : StudySession) (fid : Nat) (b : Bool) (t : Int)
    (storeOk : Bool) (hmem : fid ∉ s.flashcards.map (·.flashcard)) :
    recordOutcome s fid b t storeOk = .error .invalidReference ∧
    persistedAfter s (recordOutcome s fid b t storeOk) = s := by
  have h := recordOutcome_invalidReference s fid b t storeOk hmem
  refine ⟨h, ?_⟩
  rw [h]
  rfl

/-- C7 witness: card 99 is not in the fresh one-card session. -/
theorem c7_invalid_reference_witness :
    recordOutcome freshSessionEx 99 true 5 true = .error .invalidReference ∧
    persistedAfter freshSessionEx (recordOutcome freshSessionEx 99 true 5 true)
      = freshSessionEx :=
  c7_invalid_reference freshSessionEx 99 true 5 true (by decide)

/-- C1: starting a session over a deck's cards and applying any nonempty
sequence of successful RecordOutcome calls, k of them correct and m
incorrect, on distinct in-snapshot cards, yields Score.correct = k,
Score.incorrect = m and Score.percentage = round(100 * k / (k + m)). -/
theorem c1_score_after_submissions (shuffle : List Nat → List Nat)
    (randomOrder : Bool) (cards : List Nat) (user deck : Nat) (now : Int)
    (subs : List Submission) (k m : Nat)
    (hperm : (shuffle cards).Perm cards)
    (hmem : ∀ sub ∈ subs, sub.flashcardId ∈ cards)
    (_hnodup : (subs.map (·.flashcardId)).Nodup)
    (hne : subs ≠ [])
    (hk : k = subs.countP (fun sub => sub.isCorrect))
    (hm : m = subs.countP (fun sub => !sub.isCorrect)) :
    ∃ s0 s', startSession shuffle randomOrder cards user deck now = .ok s0 ∧
      runSubmissions s0 subs = .ok s' ∧
      s'.score.correct = k ∧ s'.score.incorrect = m ∧
      (s'.score.percentage : ℤ) = round (100 * (k : ℚ) / ((k : ℚ) + (m : ℚ))) := by
  obtain ⟨sub0, hsub0⟩ := List.exists_mem_of_ne_nil subs hne
  have hcards : cards ≠ [] := List.ne_nil_of_mem (hmem sub0 hsub0)
  obtain ⟨s0, hs0, hfids, _, _, hscore0, _⟩ :=
    startSession_ok shuffle randomOrder cards user deck now hcards
  have hmem0 : ∀ sub ∈ subs, sub.flashcardId ∈ s0.flashcards.map (·.flashcard) := by
    intro sub hsub
    rw [hfids]
    by_cases hr : randomOrder
    · simpa [hr] using (hperm.mem_iff).mpr (hmem sub hsub)
    · simpa [hr] using hmem sub hsub
  obtain ⟨s', hrun, _, _, _, hc, hi, _, hpct⟩ := runSubmissions_spec subs s0 hmem0
  have hkc : s'.score.correct = k := by
    rw [hc, hscore0, hk]
    simp
  have hmc : s'.score.incorrect = m := by
    rw [hi, hscore0, hm]
    simp
  have hlenpos : 0 < k + m := by
    have hcnt := countP_isCorrect_add subs
    have hlp : 0 < subs.length := List.length_pos.mpr hne
    omega
  refine ⟨s0, s', hs0, hrun, hkc, hmc, ?_⟩
  rw [hpct hne, hkc, hmc]
  rw [jsRoundDiv_eq_round (100 * k) (k + m) hlenpos]
  congr 1
  push_cast
  ring

/-- C1 witness: three distinct cards answered correct, incorrect, correct
give correct = 2, incorrect = 1, percentage = round(200/3) = 67. -/
theorem c1_score_after_submissions_witness :
    ∃ s0 s', startSession id false [1, 2, 3] 0 0 0 = .ok s0 ∧
      runSubmissions s0 [⟨1, true, 5⟩, ⟨2, false, 3⟩, ⟨3, true, 2⟩] = .ok s' ∧
      s'.score.correct = 2 ∧ s'.score.incorrect = 1 ∧
      (s'.score.percentage : ℤ) = round (100 * (2 : ℚ) / ((2 : ℚ) + (1 : ℚ))) := by
  have h := c1_score_after_submissions id false [1, 2, 3] 0 0 0
    [⟨1, true, 5⟩, ⟨2, false, 3⟩, ⟨3, true, 2⟩] 2 1 (List.Perm.refl _)
    (by decide) (by decide) (by decide) (by decide) (by decide)
  obtain ⟨s0, s', h1, h2, h3, h4, h5⟩ := h
  refine ⟨s0, s', h1, h2, h3, h4, ?_⟩
  rw [h5]
  norm_num

/-- C10: Score.correct + Score.incorrect equals the number of successful
RecordOutcome calls, not the number of distinct answered cards: every call
on an in-snapshot card (repeated ones included) increments the answered
tally and the attempt total by one, while the card-record count stays at
the deck size, so the tallies can exceed the number of cards. -/
theorem c10_tallies_count_calls (shuffle : List Nat → List Nat)
    (randomOrder : Bool) (cards : List Nat) (user deck : Nat) (now : Int)
    (subs : List Submission)
    (hperm : (shuffle cards).Perm cards)
    (hcards : cards ≠ [])
    (hmem : ∀ sub ∈ subs, sub.flashcardId ∈ cards) :
    ∃ s0 s', startSession shuffle randomOrder cards user deck now = .ok s0 ∧
      runSubmissions s0 subs = .ok s' ∧
      s'.score.correct + s'.score.incorrect = subs.length ∧
      attemptsSum s'.flashcards = subs.length ∧
      s'.flashcards.length = cards.length := by
  obtain ⟨s0, hs0, hfids, hlen0, hinit0, hscore0, _⟩ :=
    startSession_ok shuffle randomOrder cards user deck now hcards
  have hmem0 : ∀ sub ∈ subs, sub.flashcardId ∈ s0.flashcards.map (·.flashcard) := by
    intro sub hsub
    rw [hfids]
    by_cases hr : randomOrder
    · simpa [hr] using (hperm.mem_iff).mpr (hmem sub hsub)
    · simpa [hr] using hmem sub hsub
  have hatt0 : attemptsSum s0.flashcards = 0 := attemptsSum_init s0.flashcards hinit0
  obtain ⟨s', hrun, _, hlen, hatt, hc, hi, _, _⟩ := runSubmissions_spec subs s0 hmem0
  refine ⟨s0, s', hs0, hrun, ?_, ?_, ?_⟩
  · rw [hc, hi, hscore0]
    have hcnt := countP_isCorrect_add subs
    simp only [Score.mk.injEq] at hscore0 ⊢
    simp
    omega
  · rw [hatt, hatt0]
    omega
  · rw [hlen, hlen0]
    by_cases hr : randomOrder
    · simp [hr, hperm.length_eq]
    · simp [hr]

/-- C10 witness: a one-card deck submitted twice (second call overwrites
the first) ends with correct + incorrect = 2 attempts over 1 card. -/
theorem c10_tallies_count_calls_witness :
    ∃ s0 s', startSession id false [1] 0 0 0 = .ok s0 ∧
      runSubmissions s0 [⟨1, true, 2⟩, ⟨1, false, 3⟩] = .ok s' ∧
      s'.score.correct + s'.score.incorrect = 2 ∧
      attemptsSum s'.flashcards = 2 ∧
      s'.flashcards.length = 1 :=
  c10_tallies_count_calls id false [1] 0 0 0 [⟨1, true, 2⟩, ⟨1, false, 3⟩]
    (List.Perm.refl _) (by decide) (by decide)

/-- C9 counterexample: the claim says an unrecognized timeRange either
behaves as the 7-day default or fails with InvalidArgument; the value
"14d" is none of the four documented windows, yet yields a normal
14-day window — a third behavior. -/
theorem c9_counterexample :
    ("14d" ≠ "7d" ∧ "14d" ≠ "30d" ∧ "14d" ≠ "90d" ∧ "14d" ≠ "all") ∧
    getStatisticsFilter (some "14d") = .window (14 * (24 * 60 * 60 * 1000)) ∧
    getStatisticsFilter (some "14d") ≠ getStatisticsFilter (some "7d") ∧
    getStatisticsFilter (some "14d") ≠ .invalidDate := by decide

/-- C9 amended: for every timeRange value other than "all", the handler
deterministically parses the value with its first "d" removed as an
integer: when a leading integer exists the report uses a window of that
many days (not necessarily 7); when none exists the date filter is an
invalid date and the request fails with a server error, not
InvalidArgument. -/
theorem c9_amended_range_parsing (r : String) (h : r ≠ "all") :
    (∃ n : Int, jsParseInt (String.mk (removeFirstChar 'd' r.toList)) = some n ∧
      timeRangeFilter r = .window (n * (24 * 60 * 60 * 1000))) ∨
    (jsParseInt (String.mk (removeFirstChar 'd' r.toList)) = none ∧
      timeRangeFilter r = .invalidDate) := by
  rw [timeRangeFilter, if_neg h]
  cases hp : jsParseInt (String.mk (removeFirstChar 'd' r.toList)) with
  | none => exact Or.inr ⟨rfl, rfl⟩
  | some n => exact Or.inl ⟨n, rfl, rfl⟩

/-- C9 amended witness: "14d" parses to 14 and yields a 14-day window. -/
theorem c9_amended_range_parsing_witness :
    (∃ n : Int, jsParseInt (String.mk (removeFirstChar 'd' "14d".toList)) = some n ∧
      timeRangeFilter "14d" = .window (n * (24 * 60 * 60 * 1000))) ∨
    (jsParseInt (String.mk (removeFirstChar 'd' "14d".toList)) = none ∧
      timeRangeFilter "14d" = .invalidDate) :=
  c9_amended_range_parsing "14d" (by decide)

/-! ## Counting lemmas for the totalCards invariant -/

/-- Appending one flashcard raises the count of its deck by one and leaves
other decks' counts unchanged. -/
theorem cardCount_append (cards : List FlashcardRec) (new : FlashcardRec) (k : Nat) :
    cardCount (cards ++ [new]) k
      = cardCount cards k + (if new.deck = k then 1 else 0) := by
  simp only [cardCount, List.countP_append, List.countP_cons, List.countP_nil]
  by_cases h : new.deck = k
  · simp [h]
  · simp [h]

/-- Removing every flashcard of one deck leaves the other decks' counts
unchanged. -/
theorem cardCount_filterOut (cards : List FlashcardRec) (deckId k : Nat)
    (hk : ¬ k = deckId) :
    cardCount (cards.filter (fun c => !(c.deck == deckId))) k = cardCount cards k := by
  induction cards with
  | nil => rfl
  | cons a l ih =>
    by_cases ha : a.deck = deckId
    · have : (!(a.deck == deckId)) = false := by simp [ha]
      simp only [cardCount, List.filter_cons, this, Bool.false_eq_true, if_false,
        List.countP_cons]
      have hak : (a.deck == k) = false := by
        simp only [beq_eq_false_iff_ne, ne_eq, ha]
        omega
      simp only [hak, Bool.false_eq_true, if_false, Nat.add_zero]
      exact ih
    · have : (!(a.deck == deckId)) = true := by simp [ha]
      simp only [cardCount, List.filter_cons, this, if_true, List.countP_cons]
      simp only [cardCount] at ih
      omega

/-- Deleting one flashcard by id (ids being unique) lowers the count of
that card's deck by one and leaves other counts unchanged. -/
theorem cardCount_eraseP_mem (cardId : Nat) (c : FlashcardRec) (k : Nat) :
    ∀ cards : List FlashcardRec, (cards.map (·.id)).Nodup → c ∈ cards → c.id = cardId →
      cardCount cards k
        = cardCount (cards.eraseP (fun x => x.id == cardId)) k
          + (if c.deck = k then 1 else 0) := by
  intro cards
  induction cards with
  | nil => intro _ hc _; cases hc
  | cons a l ih =>
    intro hnd hc hcid
    have hnd' : (l.map (·.id)).Nodup := by
      simp only [List.map_cons, List.nodup_cons] at hnd
      exact hnd.2
    have hidnotin : a.id ∉ l.map (·.id) := by
      simp only [List.map_cons, List.nodup_cons] at hnd
      exact hnd.1
    by_cases ha : a.id = cardId
    · have hca : c = a := by
        rcases List.mem_cons.mp hc with h | h
        · exact h
        · exfalso
          apply hidnotin
          rw [ha, ← hcid]
          exact List.mem_map.mpr ⟨c, h, rfl⟩
      rw [List.eraseP_cons_of_pos (by simp [ha])]
      subst hca
      simp only [cardCount, List.countP_cons]
      by_cases hk : c.deck = k
      · simp [hk]
      · simp [hk]
    · have hcl : c ∈ l := by
        rcases List.mem_cons.mp hc with h | h
        · exact absurd (h ▸ hcid) ha
        · exact h
      rw [List.eraseP_cons_of_neg (by simp [ha])]
      simp only [cardCount, List.countP_cons] at ih ⊢
      rw [ih hnd' hcl hcid]
      omega

/-- Every deck surviving a delete-by-id (ids being unique) was already
present and does not carry the deleted id. -/
theorem decks_eraseP_mem (deckId : Nat) :
    ∀ decks : List Deck, (decks.map (·.id)).Nodup →
      ∀ d ∈ decks.eraseP (fun x => x.id == deckId), d ∈ decks ∧ ¬ d.id = deckId := by
  intro decks
  induction decks with
  | nil => intro _ d hd; simp [List.eraseP] at hd
  | cons a l ih =>
    intro hnd d hd
    have hnd' : (l.map (·.id)).Nodup := by
      simp only [List.map_cons, List.nodup_cons] at hnd
      exact hnd.2
    have hidnotin : a.id ∉ l.map (·.id) := by
      simp only [List.map_cons, List.nodup_cons] at hnd
      exact hnd.1
    by_cases ha : a.id = deckId
    · rw [List.eraseP_cons_of_pos (by simp [ha])] at hd
      refine ⟨List.mem_cons_of_mem a hd, ?_⟩
      intro hdid
      apply hidnotin
      rw [ha, ← hdid]
      exact List.mem_map.mpr ⟨d, hd, rfl⟩
    · rw [List.eraseP_cons_of_neg (by simp [ha])] at hd
      rcases List.mem_cons.mp hd with h | h
      · subst h
        exact ⟨List.mem_cons_self d l, ha⟩
      · obtain ⟨hmem, hne⟩ := ih hnd' d h
        exact ⟨List.mem_cons_of_mem a hmem, hne⟩

/-- An update that only touches counters keeps the id sequence of the deck
list. -/
theorem decks_map_update_id (decks : List Deck) (g : Deck → Deck)
    (hg : ∀ d, (g d).id = d.id) :
    (decks.map g).map (·.id) = decks.map (·.id) := by
  rw [List.map_map]
  exact List.map_congr_left (fun a _ => hg a)

/-- C8: Deck.statistics.totalCards always equals the live count of
flashcards referencing the deck: under fresh document ids, every store
operation — deck creation/deletion and flashcard creation (which
increments the counter) and deletion (which decrements it) — preserves the
invariant. -/
theorem c8_totalCards_invariant (op : StoreOp) (s : Store)
    (hinv : TotalCardsInv s) (hfresh : freshIds op s = true) :
    TotalCardsInv (applyOp op s) := by
  obtain ⟨hdn, hcn, hcount⟩ := hinv
  cases op with
  | createDeck uid deckId =>
    simp only [freshIds, Bool.and_eq_true] at hfresh
    obtain ⟨hnotin, hzero⟩ := hfresh
    have hnotin' : ∀ d ∈ s.decks, ¬ d.id = deckId := by
      intro d hd
      simp only [Bool.not_eq_eq_eq_not, Bool.not_true, List.any_eq_false] at hnotin
      simpa using hnotin d hd
    have hzero' : cardCount s.cards deckId = 0 := by
      simpa using hzero
    refine ⟨?_, hcn, ?_⟩
    · simp only [applyOp, createDeck, List.map_append, List.map_cons, List.map_nil]
      rw [List.nodup_append]
      refine ⟨hdn, List.nodup_singleton _, ?_⟩
      intro x hx hy
      simp only [List.mem_singleton] at hy
      subst hy
      rcases List.mem_map.mp hx with ⟨d, hd, hdx⟩
      exact hnotin' d hd hdx
    · intro d hd
      simp only [applyOp, createDeck, List.mem_append, List.mem_singleton] at hd
      rcases hd with hd | hd
      · exact hcount d hd
      · subst hd
        show (0 : Int) = (cardCount s.cards deckId : Int)
        rw [hzero']
        rfl
  | deleteDeck uid deckId =>
    simp only [applyOp, deleteDeck]
    by_cases hany : s.decks.any (fun d => d.id == deckId && d.owner == uid) = true
    · simp only [hany, if_true]
      refine ⟨?_, ?_, ?_⟩
      · exact hdn.sublist ((List.eraseP_sublist s.decks).map (·.id))
      · exact hcn.sublist ((List.filter_sublist s.cards).map (·.id))
      · intro d hd
        obtain ⟨hmem, hne⟩ := decks_eraseP_mem deckId s.decks hdn d hd
        rw [cardCount_filterOut s.cards deckId d.id hne]
        exact hcount d hmem
    · simp only [hany, Bool.false_eq_true, if_false]
      exact ⟨hdn, hcn, hcount⟩
  | createCard uid deckId cardId =>
    have hfresh' : ∀ c ∈ s.cards, ¬ c.id = cardId := by
      intro c hc
      simp only [freshIds, Bool.not_eq_eq_eq_not, Bool.not_true, List.any_eq_false] at hfresh
      simpa using hfresh c hc
    simp only [applyOp, createCard]
    by_cases hany : s.decks.any (fun d => d.id == deckId && d.owner == uid) = true
    · simp only [hany, if_true]
      refine ⟨?_, ?_, ?_⟩
      · rw [decks_map_update_id s.decks _ (fun d => by split <;> rfl)]
        exact hdn
      · simp only [List.map_append, List.map_cons, List.map_nil]
        rw [List.nodup_append]
        refine ⟨hcn, List.nodup_singleton _, ?_⟩
        intro x hx hy
        simp only [List.mem_singleton] at hy
        subst hy
        rcases List.mem_map.mp hx with ⟨c, hc, hcx⟩
        exact hfresh' c hc hcx
      · intro d' hd'
        rcases List.mem_map.mp hd' with ⟨d, hd, hdd⟩
        subst hdd
        by_cases hdid : d.id = deckId
        · rw [if_pos hdid]
          show d.totalCards + 1
            = (cardCount (s.cards ++ [{ id := cardId, deck := deckId, owner := uid }]) d.id : Int)
          rw [cardCount_append]
          have hc := hcount d hd
          have hdk : ({ id := cardId, deck := deckId, owner := uid } : FlashcardRec).deck = d.id := by
            show deckId = d.id
            omega
          rw [if_pos hdk]
          push_cast
          omega
        · rw [if_neg hdid]
          show d.totalCards
            = (cardCount (s.cards ++ [{ id := cardId, deck := deckId, owner := uid }]) d.id : Int)
          rw [cardCount_append]
          have hdk : ¬ ({ id := cardId, deck := deckId, owner := uid } : FlashcardRec).deck = d.id := by
            show ¬ deckId = d.id
            omega
          rw [if_neg hdk, Nat.add_zero]
          exact hcount d hd
    · simp only [hany, Bool.false_eq_true, if_false]
      exact ⟨hdn, hcn, hcount⟩
  | deleteCard uid cardId =>
    simp only [applyOp, deleteCard]
    cases hfind : s.cards.find? (fun c => c.id == cardId && c.owner == uid) with
    | none => exact ⟨hdn, hcn, hcount⟩
    | some c =>
      have hcmem : c ∈ s.cards := List.mem_of_find?_eq_some hfind
      have hcid : c.id = cardId := by
        have hp := List.find?_some hfind
        simp only [Bool.and_eq_true, beq_iff_eq] at hp
        exact hp.1
      refine ⟨?_, ?_, ?_⟩
      · rw [decks_map_update_id s.decks _ (fun d => by split <;> rfl)]
        exact hdn
      · exact hcn.sublist ((List.eraseP_sublist s.cards).map (·.id))
      · intro d' hd'
        rcases List.mem_map.mp hd' with ⟨d, hd, hdd⟩
        subst hdd
        have hcc := cardCount_eraseP_mem cardId c d.id s.cards hcn hcmem hcid
        have hc := hcount d hd
        by_cases hdid : d.id = c.deck
        · rw [if_pos hdid]
          show d.totalCards - 1
            = (cardCount (s.cards.eraseP (fun x => x.id == cardId)) d.id : Int)
          rw [if_pos hdid.symm] at hcc
          omega
        · rw [if_neg hdid]
          show d.totalCards
            = (cardCount (s.cards.eraseP (fun x => x.id == cardId)) d.id : Int)
          have hne : ¬ c.deck = d.id := fun h => hdid h.symm
          rw [if_neg hne, Nat.add_zero] at hcc
          rw [← hcc]
          exact hc

/-- A concrete store with one deck and one card. -/
def storeEx : Store :=
  { decks := [{ id := 1, owner := 7, totalCards := 1, totalStudyTime := 0, averageScore := 0 }]
    cards := [{ id := 5, deck := 1, owner := 7 }] }

/-- C8 witness: creating a second card (fresh id 6) in deck 1 of `storeEx`
preserves the invariant. -/
theorem c8_totalCards_invariant_witness :
    TotalCardsInv storeEx ∧ freshIds (.createCard 7 1 6) storeEx = true ∧
    TotalCardsInv (applyOp (.createCard 7 1 6) storeEx) :=
  ⟨by decide, by decide, c8_totalCards_invariant (.createCard 7 1 6) storeEx
    (by decide) (by decide)⟩

end Edubin
